import Mathlib

/-!
Verification of the command-building, option-building and result-reporting
logic of the hyperfine benchmarking tool, shallowly embedded from
`src/main.rs`.  Modules that `main.rs` uses but whose sources are not part
of this tree (`types`, `command`, `options`, `error`, `relative_speed`,
`export`, `benchmark_result`) are modelled from the specification; each
such definition carries a doc comment saying so.
-/

/-- Modelled from the spec: `ParameterValue` (module `types` not in the tree).
Tagged variant `Text(string)` or `Numeric(decimal, as-string)`; the string
form substitutes into command templates. -/
inductive ParameterValue where
  | Text : String → ParameterValue
  | Numeric : Rat → String → ParameterValue
deriving DecidableEq, Repr

/-- Modelled from the spec: `Command` (module `command` not in the tree).
Optional display name, the command string, and an ordered mapping from
parameter name to parameter value. -/
structure Command where
  name : Option String
  expression : String
  parameters : List (String × ParameterValue)
deriving DecidableEq, Repr

/-- Constructor `Command::new(name, expression)`: a plain command with no
parameters. -/
def Command.new (name : Option String) (expression : String) : Command :=
  ⟨name, expression, []⟩

/-- Constructor `Command::new_parametrized(name, expression, parameters)`. -/
def Command.new_parametrized (name : Option String) (expression : String)
    (parameters : List (String × ParameterValue)) : Command :=
  ⟨name, expression, parameters⟩

/-- Byte-wise (character-wise) lexicographic order on strings, the iteration
order of Rust's `BTreeMap<&str, _>`.  Defined by structural recursion so
that it evaluates inside the kernel. -/
def charsLe : List Char → List Char → Bool
  | [], _ => true
  | _ :: _, [] => false
  | a :: as, b :: bs =>
    if a < b then true
    else if b < a then false
    else charsLe as bs

/-- String order used by `find_dupes`, see `charsLe`. -/
def strLe (a b : String) : Bool :=
  charsLe a.data b.data

/-- Insertion into a sorted list of strings (helper for the `BTreeMap`
iteration-order model). -/
def insertSorted (a : String) : List String → List String
  | [] => [a]
  | b :: bs => if strLe a b then a :: b :: bs else b :: insertSorted a bs

/-- Sort a list of strings (insertion sort), modelling the sorted key
iteration of `BTreeMap`. -/
def sortStrings (l : List String) : List String :=
  l.foldr insertSorted []

/-- Remove duplicate entries, keeping the last occurrence of each element
(on a sorted list this yields the sorted distinct keys, as a `BTreeMap`
iteration does). -/
def dedupKeys : List String → List String
  | [] => []
  | a :: as => if a ∈ as then dedupKeys as else a :: dedupKeys as

/-- `find_dupes` from `main.rs`: all the strings that appear multiple times
in the input, in sorted order (the `BTreeMap` counts occurrences per key and
the keys with count > 1 are returned in key order). -/
def find_dupes (i : List String) : List String :=
  (dedupKeys (sortStrings i)).filter (fun s => decide (1 < i.count s))

/-- Modelled from the spec: the variants of `OptionsError` (module `error`
not in the tree) that `main.rs` raises. -/
inductive OptionsError where
  | EmptyRunsRange : OptionsError
  | UnexpectedCommandNameCount : Nat → Nat → OptionsError
  | TooManyCommandNames : Nat → OptionsError
deriving DecidableEq, Repr

/-- A user error raised through the diverging `error(..)` helper while
building commands: either the duplicate-parameter-name message or one of
the `OptionsError` values whose message is printed. -/
inductive BuildError where
  | duplicateParameterNames : List String → BuildError
  | optionsError : OptionsError → BuildError
deriving DecidableEq, Repr

/-- The index-increment step at the bottom of the `'outer` loop of
`build_commands`: add one to the leftmost digit; on overflow reset it to `0`
and carry to the next digit; answer `none` when the whole odometer
overflows (the `break 'outer`). -/
def increment_index : List Nat → List Nat → Option (List Nat)
  | i :: is, n :: ns =>
    if i + 1 < n then some ((i + 1) :: is)
    else
      match increment_index is ns with
      | some rest => some (0 :: rest)
      | none => none
  | _, _ => none

/-- The body of the `'outer` loop of `build_commands`: pick the display
name (`command_names.get(i).or_else(|| command_names.get(0))`), split the
index into the command index and the per-parameter indices, and build the
parametrized command. -/
def makeCommand (command_names command_list : List String)
    (param_names_and_values : List (String × List String))
    (i : Nat) (index : List Nat) : Command :=
  let name := (command_names.get? i).orElse (fun _ => command_names.get? 0)
  let command_index := index.headD 0
  let params_indices := index.tail
  let parameters := (param_names_and_values.zip params_indices).map
    (fun pi => (pi.1.1, ParameterValue.Text (pi.1.2.getD pi.2 "")))
  Command.new_parametrized name (command_list.getD command_index "") parameters

/-- The `'outer` loop of `build_commands`, with explicit fuel:
`param_space_size` iterations suffice, since the odometer overflows after
exactly `param_space_size` steps (proved below). -/
def buildLoop (command_names command_list : List String)
    (param_names_and_values : List (String × List String))
    (dimensions : List Nat) : Nat → Nat → List Nat → List Command
  | 0, _, _ => []
  | fuel + 1, i, index =>
    let cmd := makeCommand command_names command_list param_names_and_values i index
    match increment_index index dimensions with
    | some index' =>
      cmd :: buildLoop command_names command_list param_names_and_values
        dimensions fuel (i + 1) index'
    | none => [cmd]

/-- The dimension vector of the parameter-list cross product:
`[commands, param₁, param₂, …]`. -/
def crossDims (command_list : List String)
    (param_names_and_values : List (String × List String)) : List Nat :=
  command_list.length :: param_names_and_values.map (fun p => p.2.length)

/-- `param_space_size`, the product of the dimensions. -/
def crossSize (command_list : List String)
    (param_names_and_values : List (String × List String)) : Nat :=
  (crossDims command_list param_names_and_values).prod

/-- The `--parameter-list` branch of `build_commands` from `main.rs`,
starting after tokenization (`param_names_and_values` is the list of
`(name, tokenize(list_str))` pairs): check for duplicate parameter names,
compute the dimensions and the parameter-space size, return no commands for
an empty parameter space, check the `--command-name` count, then run the
odometer loop.  Calls to the diverging `error(..)` helper are modelled as
`Except.error`. -/
def build_commands_paramlist (command_names command_list : List String)
    (param_names_and_values : List (String × List String)) :
    Except BuildError (List Command) :=
  let dupes := find_dupes (param_names_and_values.map (fun p => p.1))
  if dupes ≠ [] then
    .error (.duplicateParameterNames dupes)
  else
    let dimensions := crossDims command_list param_names_and_values
    let param_space_size := dimensions.prod
    if param_space_size = 0 then
      .ok []
    else
      let command_name_count := command_names.length
      if 1 < command_name_count ∧ command_name_count ≠ param_space_size then
        .error (.optionsError (.UnexpectedCommandNameCount command_name_count param_space_size))
      else
        .ok (buildLoop command_names command_list param_names_and_values
          dimensions param_space_size 0 (List.replicate dimensions.length 0))

/-- The plain (no `--parameter-scan`, no `--parameter-list`) branch of
`build_commands` from `main.rs`: more names than commands is a user error,
otherwise each command string is paired with its name, if any. -/
def build_commands_plain (command_names command_list : List String) :
    Except BuildError (List Command) :=
  if command_list.length < command_names.length then
    .error (.optionsError (.TooManyCommandNames command_list.length))
  else
    .ok (command_list.enum.map (fun is => Command.new (command_names.get? is.1) is.2))

/-- Mixed-radix digits of `k` for the dimension vector `ds`, least
significant digit first: the position in the cross product reached after
`k` steps of the odometer. -/
def radixDigits : Nat → List Nat → List Nat
  | _, [] => []
  | k, n :: ns => (k % n) :: radixDigits (k / n) ns

/-- Run-count bounds stored in `HyperfineOptions` (modelled from the spec:
module `options` not in the tree; `min ≥ 1`, `max` unset means bounded only
by the time budget). -/
structure RunBounds where
  min : Nat
  max : Option Nat
deriving DecidableEq, Repr

/-- The run-count portion of `build_hyperfine_options` from `main.rs`,
parametrized by the default minimum run count `dmin` (the default value
lives in the missing `options` module).  `--runs` overwrites both bounds;
then the `match (min_runs, max_runs)` of the source is followed arm by
arm. -/
def computeRuns (dmin : Nat) (min_runs max_runs runs : Option Nat) :
    Except OptionsError RunBounds :=
  let min_runs := match runs with | some r => some r | none => min_runs
  let max_runs := match runs with | some r => some r | none => max_runs
  match min_runs, max_runs with
  | some mn, none => .ok ⟨mn, none⟩
  | none, some mx => .ok ⟨Nat.min dmin mx, some mx⟩
  | some mn, some mx =>
    if mx < mn then .error .EmptyRunsRange else .ok ⟨mn, some mx⟩
  | none, none => .ok ⟨dmin, none⟩

/-- Modelled from the spec: `BenchmarkResult` (module `benchmark_result` not
in the tree), restricted to the fields the reporting code reads: the command
string, the mean wall-clock time and the optional standard deviation.
Floating-point times are modelled as rationals. -/
structure BenchmarkResult where
  command : String
  mean : Rat
  stddev : Option Rat
deriving DecidableEq, Repr

/-- Modelled from the spec: one entry of the relative-speed analyzer output
(module `relative_speed` not in the tree).  The `relative_speed_stddev`
annotation (a square root over floats, used only for display) is not
modelled; no claim refers to it. -/
structure AnnotatedResult where
  result : BenchmarkResult
  relative_speed : Rat
deriving DecidableEq, Repr

/-- Insertion of a result into a list sorted by ascending mean. -/
def insertByMean (r : BenchmarkResult) : List BenchmarkResult → List BenchmarkResult
  | [] => [r]
  | s :: ss => if r.mean ≤ s.mean then r :: s :: ss else s :: insertByMean r ss

/-- Sort results by ascending mean (insertion sort). -/
def sortResultsByMean (l : List BenchmarkResult) : List BenchmarkResult :=
  l.foldr insertByMean []

/-- Modelled from the spec: `relative_speed::compute` (module not in the
tree).  If any mean is ≤ 0 the computation is "uncomputable" (`none`);
otherwise the results are ordered by ascending mean and each is annotated
with its mean divided by the fastest mean (so the fastest has relative
speed 1). -/
def relativeSpeedCompute (results : List BenchmarkResult) :
    Option (List AnnotatedResult) :=
  if results.all (fun r => decide (0 < r.mean)) then
    let sorted := sortResultsByMean results
    match sorted.head? with
    | some fastest => some (sorted.map (fun r => ⟨r, r.mean / fastest.mean⟩))
    | none => some []
  else none

/-- Insertion of an annotated result into a list sorted by ascending mean
(the caller's `sort_by(compare_mean_time)`). -/
def insertAnnotatedByMean (r : AnnotatedResult) :
    List AnnotatedResult → List AnnotatedResult
  | [] => [r]
  | s :: ss =>
    if r.result.mean ≤ s.result.mean then r :: s :: ss
    else s :: insertAnnotatedByMean r ss

/-- Sort annotated results by ascending mean, modelling
`annotated_results.sort_by(compare_mean_time)` in `main.rs`. -/
def sortAnnotatedByMean (l : List AnnotatedResult) : List AnnotatedResult :=
  l.foldr insertAnnotatedByMean []

/-- The `Note:` line `write_benchmark_comparison` prints to stderr when the
relative speed is uncomputable (terminal colors elided). -/
def comparisonUncomputableNote : String :=
  "Note: The benchmark comparison could not be computed as some benchmark " ++
  "times are zero. This could be caused by background interference during " ++
  "the initial calibration phase of hyperfine, in combination with very " ++
  "fast commands (faster than a few milliseconds). Try to re-run the " ++
  "benchmark on a quiet system. If it does not help, you command is most " ++
  "likely too fast to be accurately benchmarked by hyperfine."

/-- One `times faster than` line of the Summary block (numeric formatting,
the stddev annotation and terminal colors elided). -/
def fasterLine (item : AnnotatedResult) : String :=
  toString item.relative_speed ++ " times faster than \x27" ++
    item.result.command ++ "\x27"

/-- `write_benchmark_comparison` from `main.rs`, as the pair
(stdout lines, stderr lines) it prints: nothing for fewer than two results;
otherwise either the Summary block on stdout, or, when the relative speed
is uncomputable, the explanatory note on stderr. -/
def write_benchmark_comparison (results : List BenchmarkResult) :
    List String × List String :=
  if results.length < 2 then ([], [])
  else
    match relativeSpeedCompute results with
    | some annotated_results =>
      match sortAnnotatedByMean annotated_results with
      | [] => ([], [])
      | fastest :: others =>
        ("Summary" :: ("  \x27" ++ fastest.result.command ++ "\x27 ran")
          :: others.map fasterLine, [])
    | none => ([], [comparisonUncomputableNote])

/-- Modelled from the spec: `ExportManager::write_results` (module `export`
not in the tree) serializes the current results through every registered
exporter in order, stopping at the first failing write.  An exporter is
abstracted as a function from the results to an optional error message.
The answer is the list of performed calls, as (exporter index, results
passed) pairs, together with the first error, if any. -/
def writeResultsFrom (j : Nat)
    (exporters : List (List BenchmarkResult → Option String))
    (results : List BenchmarkResult) :
    List (Nat × List BenchmarkResult) × Option String :=
  match exporters with
  | [] => ([], none)
  | e :: es =>
    match e results with
    | some err => ([(j, results)], some err)
    | none =>
      let rest := writeResultsFrom (j + 1) es results
      ((j, results) :: rest.1, rest.2)

/-- `write_results` over all registered exporters, starting at index 0. -/
def write_results (exporters : List (List BenchmarkResult → Option String))
    (results : List BenchmarkResult) :
    List (Nat × List BenchmarkResult) × Option String :=
  writeResultsFrom 0 exporters results

/-- `OutputStyleOption` (from the spec and the `--style` handling in
`main.rs`). -/
inductive OutputStyleOption where
  | Full | Basic | NoColor | Color | Disabled
deriving DecidableEq, Repr

/-- Observable trace of one `run` invocation from `main.rs`: the collected
benchmark results, every exporter call made, the stdout and stderr lines
printed by the code in `main.rs` (the Summary block, the uncomputable note
and `Error:` lines; progress display lives in missing modules and is not
modelled), and the exit code when the diverging `error(..)` helper fired
(`none` when `run` returned `Ok`). -/
structure RunTrace where
  results : List BenchmarkResult
  exportCalls : List (Nat × List BenchmarkResult)
  stdoutLines : List String
  stderrLines : List String
  exitCode : Option Nat
deriving Repr

/-- The `--prepare` count check at the top of `run`:
`preparation_command.len() > 1 && commands.len() != preparation_command.len()`
is a fatal user error. -/
def prepCountBad (preparation_command : Option (List String))
    (ncommands : Nat) : Bool :=
  match preparation_command with
  | some p => decide (1 < p.length) && decide (ncommands ≠ p.length)
  | none => false

/-- The `Error:` line for a bad `--prepare` count. -/
def prepareErrorLine : String :=
  "Error: The \x27--prepare\x27 option has to be provided just once or N " ++
  "times, where N is the number of benchmark commands."

/-- The benchmark loop of `run` from `main.rs`: for each command, run the
benchmark, append the result to the accumulator, and write the entire
accumulator through every registered exporter; an export failure aborts
with the fatal message.  `run_benchmark` (missing module) is abstracted as
the function `bench` from a command to its result. -/
def runLoop (bench : String → BenchmarkResult)
    (exporters : List (List BenchmarkResult → Option String)) :
    List String → List BenchmarkResult → List (Nat × List BenchmarkResult) →
    List BenchmarkResult × List (Nat × List BenchmarkResult) × Option String
  | [], results, calls => (results, calls, none)
  | cmd :: rest, results, calls =>
    let results' := results ++ [bench cmd]
    let wr := write_results exporters results'
    match wr.2 with
    | some e =>
      (results', calls ++ wr.1,
        some ("The following error occurred while exporting: " ++ e))
    | none => runLoop bench exporters rest results' (calls ++ wr.1)

/-- `run` from `main.rs`, as a trace: the `--prepare` count check, the
benchmark/export loop (an export failure goes through `error(..)`, which
prints an `Error:` line to stderr and exits with code 1), then, when the
output style is not `Disabled`, the relative-speed comparison. -/
def runModel (bench : String → BenchmarkResult)
    (exporters : List (List BenchmarkResult → Option String))
    (preparation_command : Option (List String))
    (output_style : OutputStyleOption) (commands : List String) : RunTrace :=
  if prepCountBad preparation_command commands.length then
    ⟨[], [], [], [prepareErrorLine], some 1⟩
  else
    let lr := runLoop bench exporters commands [] []
    match lr.2.2 with
    | some msg => ⟨lr.1, lr.2.1, [], ["Error: " ++ msg], some 1⟩
    | none =>
      let comp :=
        if output_style ≠ OutputStyleOption.Disabled
        then write_benchmark_comparison lr.1
        else ([], [])
      ⟨lr.1, lr.2.1, comp.1, comp.2, none⟩

/-- Modelled from the spec: the one-line message of an `OptionsError`
(module `error` not in the tree; the spec fixes only the `Error:` prefix
added by `error(..)`, not the message text). -/
def OptionsError.message : OptionsError → String
  | .EmptyRunsRange => "Empty runs range"
  | .UnexpectedCommandNameCount n b =>
    "Unexpected number of command names (" ++ toString n ++
      " given, 1 or " ++ toString b ++ " expected)"
  | .TooManyCommandNames n =>
    "Too many command names (" ++ toString n ++ " commands given)"

/-- The dispatch in `main` from `main.rs`: a failed option build is reported
through `error(..)` (an `Error:` line, exit code 1) before `run` is ever
invoked, so no benchmark runs; a successful option build proceeds to
`run`. -/
def mainDispatch (options : Except OptionsError RunBounds)
    (go : RunBounds → RunTrace) : RunTrace :=
  match options with
  | .ok opts => go opts
  | .error e => ⟨[], [], [], ["Error: " ++ e.message], some 1⟩

theorem mem_insertSorted (a b : String) (l : List String) :
    a ∈ insertSorted b l ↔ a = b ∨ a ∈ l := by
  induction l with
  | nil => simp [insertSorted]
  | cons c cs ih =>
    by_cases h : strLe b c = true
    · simp [insertSorted, h]
    · simp [insertSorted, h, ih]
      tauto

theorem mem_sortStrings (a : String) (l : List String) :
    a ∈ sortStrings l ↔ a ∈ l := by
  induction l with
  | nil => simp [sortStrings]
  | cons c cs ih =>
    show a ∈ insertSorted c (sortStrings cs) ↔ _
    rw [mem_insertSorted]
    simp [ih]

theorem mem_dedupKeys (a : String) (l : List String) :
    a ∈ dedupKeys l ↔ a ∈ l := by
  induction l with
  | nil => simp [dedupKeys]
  | cons c cs ih =>
    by_cases h : c ∈ cs
    · simp [dedupKeys, h, ih]
      intro he
      subst he
      exact h
    · simp [dedupKeys, h, ih]

theorem mem_find_dupes (a : String) (i : List String) :
    a ∈ find_dupes i ↔ a ∈ i ∧ 1 < i.count a := by
  unfold find_dupes
  rw [List.mem_filter, mem_dedupKeys, mem_sortStrings]
  simp

theorem find_dupes_eq_nil_iff (i : List String) :
    find_dupes i = [] ↔ i.Nodup := by
  rw [List.nodup_iff_count_le_one, List.eq_nil_iff_forall_not_mem]
  constructor
  · intro h a
    by_contra hc
    push_neg at hc
    have ha : a ∈ i := List.count_pos_iff.mp (by omega)
    exact h a ((mem_find_dupes a i).mpr ⟨ha, hc⟩)
  · intro h a ha
    have := (mem_find_dupes a i).mp ha
    have := h a
    omega

/-- C5: if the same parameter name appears in more than one
`--parameter-list`, `build_commands` terminates with the
duplicate-parameter-names user error (so no commands are built or
benchmarked), and the error lists every duplicated name. -/
theorem duplicate_parameter_names_error (command_names command_list : List String)
    (pnv : List (String × List String))
    (hdup : ¬ (pnv.map (fun p => p.1)).Nodup) :
    build_commands_paramlist command_names command_list pnv =
      .error (.duplicateParameterNames (find_dupes (pnv.map (fun p => p.1)))) ∧
    find_dupes (pnv.map (fun p => p.1)) ≠ [] ∧
    ∀ a, 1 < (pnv.map (fun p => p.1)).count a →
      a ∈ find_dupes (pnv.map (fun p => p.1)) := by
  have hne : find_dupes (pnv.map (fun p => p.1)) ≠ [] := by
    intro h
    exact hdup ((find_dupes_eq_nil_iff _).mp h)
  refine ⟨?_, hne, ?_⟩
  · unfold build_commands_paramlist
    rw [if_pos hne]
  · intro a ha
    have hmem : a ∈ pnv.map (fun p => p.1) := List.count_pos_iff.mp (by omega)
    exact (mem_find_dupes a _).mpr ⟨hmem, ha⟩

/-- C5 witness: two parameter lists both named `p` produce the duplicate
user error naming `p`. -/
theorem duplicate_parameter_names_error_witness :
    build_commands_paramlist [] ["cmd"] [("p", ["1"]), ("p", ["2"])] =
      .error (.duplicateParameterNames ["p"]) := by
  have h := duplicate_parameter_names_error [] ["cmd"]
    [("p", ["1"]), ("p", ["2"])] (by decide)
  exact h.1.trans (congrArg (fun l => Except.error (BuildError.duplicateParameterNames l))
    (by decide))

/-- C3: with both a minimum and a maximum run count supplied, `min > max`
fails option building with the `EmptyRunsRange` user error, which `main`
reports before `run` executes any benchmark; otherwise both supplied
bounds are stored. -/
theorem min_max_runs_range_check (dmin mn mx : Nat) :
    (mx < mn →
      computeRuns dmin (some mn) (some mx) none = .error .EmptyRunsRange ∧
      ∀ go, (mainDispatch (.error .EmptyRunsRange) go).results = [] ∧
        (mainDispatch (.error .EmptyRunsRange) go).exitCode = some 1 ∧
        (mainDispatch (.error .EmptyRunsRange) go).stderrLines =
          ["Error: " ++ OptionsError.message .EmptyRunsRange]) ∧
    (mn ≤ mx →
      computeRuns dmin (some mn) (some mx) none = .ok ⟨mn, some mx⟩) := by
  constructor
  · intro h
    refine ⟨?_, fun go => ⟨rfl, rfl, rfl⟩⟩
    simp [computeRuns, h]
  · intro h
    simp [computeRuns, Nat.not_lt.mpr h]

/-- C3 witness: `--min-runs 20 --max-runs 10` is the `EmptyRunsRange`
error. -/
theorem min_max_runs_range_check_witness :
    computeRuns 10 (some 20) (some 10) none = .error .EmptyRunsRange :=
  ((min_max_runs_range_check 10 20 10).1 (by decide)).1

/-- C9: when only `--max-runs` is supplied and it is below the default
minimum, the stored minimum is lowered to the maximum; consequently, for
every combination of run-count flags that builds successfully, the stored
bounds satisfy `min ≤ max` whenever a maximum is set. -/
theorem max_runs_lowers_min (dmin mx : Nat) (hlow : mx < dmin) :
    computeRuns dmin none (some mx) none = .ok ⟨mx, some mx⟩ ∧
    ∀ min_runs max_runs runs opts m,
      computeRuns dmin min_runs max_runs runs = .ok opts →
      opts.max = some m → opts.min ≤ m := by
  constructor
  · simp [computeRuns, Nat.min_eq_right (Nat.le_of_lt hlow)]
  · intro min_runs max_runs runs opts m hok hm
    cases runs with
    | some r =>
      simp [computeRuns] at hok
      subst hok
      simp at hm
      show r ≤ m
      omega
    | none =>
      cases min_runs with
      | some mn =>
        cases max_runs with
        | none =>
          simp [computeRuns] at hok
          subst hok
          simp at hm
        | some mx' =>
          by_cases hlt : mx' < mn
          · simp [computeRuns, hlt] at hok
          · simp [computeRuns, hlt] at hok
            subst hok
            simp at hm
            show mn ≤ m
            omega
      | none =>
        cases max_runs with
        | none =>
          simp [computeRuns] at hok
          subst hok
          simp at hm
        | some mx' =>
          simp [computeRuns] at hok
          subst hok
          have hmx : mx' = m := by simpa using hm
          subst hmx
          exact Nat.min_le_right _ _

/-- C9 witness: `--max-runs 3` with default minimum 10 stores
`min = max = 3`. -/
theorem max_runs_lowers_min_witness :
    computeRuns 10 none (some 3) none = .ok ⟨3, some 3⟩ :=
  (max_runs_lowers_min 10 3 (by decide)).1

/-- C10: with fewer than two collected results the comparison printer
returns immediately: it prints nothing to stdout and nothing to stderr. -/
theorem comparison_needs_two_results (results : List BenchmarkResult)
    (h : results.length < 2) :
    write_benchmark_comparison results = ([], []) := by
  unfold write_benchmark_comparison
  rw [if_pos h]

/-- C10 witness: a single result produces no comparison output. -/
theorem comparison_needs_two_results_witness :
    write_benchmark_comparison [⟨"cmd", 1, none⟩] = ([], []) :=
  comparison_needs_two_results [⟨"cmd", 1, none⟩] (by decide)

deriving instance DecidableEq for Except

theorem radixDigits_zero (ds : List Nat) :
    radixDigits 0 ds = List.replicate ds.length 0 := by
  induction ds with
  | nil => rfl
  | cons n ns ih => simp [radixDigits, List.replicate, ih]

theorem increment_index_radixDigits (ds : List Nat) (k : Nat)
    (hpos : ∀ n ∈ ds, 0 < n) (hk : k < ds.prod) :
    increment_index (radixDigits k ds) ds =
      if k + 1 < ds.prod then some (radixDigits (k + 1) ds) else none := by
  induction ds generalizing k with
  | nil =>
    have hk0 : k = 0 := by simpa using hk
    subst hk0
    simp [radixDigits, increment_index]
  | cons n ns ih =>
    have hn : 0 < n := hpos n (List.mem_cons_self n ns)
    have hns : ∀ m ∈ ns, 0 < m := fun m hm => hpos m (List.mem_cons_of_mem n hm)
    have hkmod : k % n < n := Nat.mod_lt k hn
    rw [List.prod_cons] at hk ⊢
    by_cases hlt : k % n + 1 < n
    · have h1n : 1 < n := by omega
      have hmod : (k + 1) % n = k % n + 1 := by
        rw [Nat.add_mod, Nat.mod_eq_of_lt h1n, Nat.mod_eq_of_lt hlt]
      have hnd : ¬ n ∣ (k + 1) := by
        intro hd
        have := Nat.mod_eq_zero_of_dvd hd
        omega
      have hdivk : (k + 1) / n = k / n := by
        rw [Nat.succ_div, if_neg hnd, Nat.add_zero]
      have hk1 : k + 1 < n * ns.prod := by
        rcases Nat.lt_or_ge (k + 1) (n * ns.prod) with h | h
        · exact h
        · exfalso
          have heq : k + 1 = n * ns.prod := by omega
          exact hnd ⟨ns.prod, heq⟩
      rw [if_pos hk1]
      simp [radixDigits, increment_index, hlt, hmod, hdivk]
    · have hmodn : k % n + 1 = n := by omega
      have hdmk := Nat.div_add_mod k n
      have hk1n : k + 1 = n * (k / n + 1) := by
        rw [Nat.mul_add, Nat.mul_one]
        omega
      have hdvd : n ∣ k + 1 := ⟨k / n + 1, hk1n⟩
      have hmod0 : (k + 1) % n = 0 := Nat.mod_eq_zero_of_dvd hdvd
      have hdiv1 : (k + 1) / n = k / n + 1 := by
        rw [Nat.succ_div, if_pos hdvd]
      have hkdiv : k / n < ns.prod := by
        rw [Nat.div_lt_iff_lt_mul hn, Nat.mul_comm]
        exact hk
      have ih' := ih (k / n) hns hkdiv
      by_cases h2 : k / n + 1 < ns.prod
      · rw [if_pos h2] at ih'
        have hlt2 : k + 1 < n * ns.prod := by
          rw [hk1n]
          exact (Nat.mul_lt_mul_left hn).mpr h2
        rw [if_pos hlt2]
        simp [radixDigits, increment_index, hlt, ih', hmod0, hdiv1]
      · rw [if_neg h2] at ih'
        have hge2 : ¬ (k + 1 < n * ns.prod) := by
          have : n * ns.prod ≤ n * (k / n + 1) := Nat.mul_le_mul_left n (by omega)
          omega
        rw [if_neg hge2]
        simp [radixDigits, increment_index, hlt, ih']

theorem buildLoop_radix (command_names command_list : List String)
    (pnv : List (String × List String)) (ds : List Nat)
    (hpos : ∀ n ∈ ds, 0 < n) :
    ∀ fuel k, k < ds.prod → fuel = ds.prod - k →
      buildLoop command_names command_list pnv ds fuel k (radixDigits k ds) =
        (List.range' k fuel).map
          (fun j => makeCommand command_names command_list pnv j (radixDigits j ds)) := by
  intro fuel
  induction fuel with
  | zero => intro k hk hf; omega
  | succ f ihf =>
    intro k hk hf
    by_cases h1 : k + 1 < ds.prod
    · have ih' := ihf (k + 1) h1 (by omega)
      simp only [buildLoop, increment_index_radixDigits ds k hpos hk, if_pos h1]
      rw [ih', List.range'_succ, List.map_cons]
    · have hf0 : f = 0 := by omega
      subst hf0
      simp only [buildLoop, increment_index_radixDigits ds k hpos hk, if_neg h1]
      simp [List.range'_one]

theorem crossDims_pos (command_list : List String)
    (pnv : List (String × List String)) (h : crossSize command_list pnv ≠ 0) :
    ∀ n ∈ crossDims command_list pnv, 0 < n := by
  intro n hn
  by_contra h0
  push_neg at h0
  have hn0 : n = 0 := by omega
  subst hn0
  exact h (List.prod_eq_zero hn)

theorem build_commands_paramlist_ok (command_names command_list : List String)
    (pnv : List (String × List String))
    (hnodup : (pnv.map (fun p => p.1)).Nodup)
    (hsz : crossSize command_list pnv ≠ 0)
    (hnames : command_names.length ≤ 1 ∨
      command_names.length = crossSize command_list pnv) :
    build_commands_paramlist command_names command_list pnv =
      .ok ((List.range (crossSize command_list pnv)).map
        (fun k => makeCommand command_names command_list pnv k
          (radixDigits k (crossDims command_list pnv)))) := by
  have hdup : find_dupes (pnv.map (fun p => p.1)) = [] :=
    (find_dupes_eq_nil_iff _).mpr hnodup
  have hnc : ¬(1 < command_names.length ∧
      command_names.length ≠ crossSize command_list pnv) := by
    rcases hnames with h | h
    · intro hc; omega
    · intro hc; exact hc.2 h
  unfold build_commands_paramlist
  rw [hdup]
  rw [if_neg (by simp)]
  unfold crossSize at hsz hnc ⊢
  dsimp only
  rw [if_neg hsz, if_neg hnc]
  have hstart := buildLoop_radix command_names command_list pnv
    (crossDims command_list pnv) (crossDims_pos command_list pnv hsz)
    ((crossDims command_list pnv).prod) 0 (by omega) (by omega)
  rw [radixDigits_zero] at hstart
  rw [hstart, List.range_eq_range']

/-- C1: with the duplicate check passed, a nonempty cross product and an
admissible `--command-name` count, the built command list enumerates the
full cross product with the command index varying fastest and then the
parameters in declaration order: the `k`-th built command is determined by
the least-significant-first mixed-radix digits of `k` for the dimension
vector `[commands, param₁, param₂, …]`, so the command index is `k mod
|commands|` and parameter `i` advances only after all earlier dimensions
wrap around. -/
theorem cross_product_order (command_names command_list : List String)
    (pnv : List (String × List String))
    (hnodup : (pnv.map (fun p => p.1)).Nodup)
    (hsz : crossSize command_list pnv ≠ 0)
    (hnames : command_names.length ≤ 1 ∨
      command_names.length = crossSize command_list pnv) :
    build_commands_paramlist command_names command_list pnv =
      .ok ((List.range (crossSize command_list pnv)).map
        (fun k => makeCommand command_names command_list pnv k
          (radixDigits k (crossDims command_list pnv)))) :=
  build_commands_paramlist_ok command_names command_list pnv hnodup hsz hnames

/-- C1 witness: two commands with `-L p1 a,b -L p2 z,y` build exactly the
eight commands of the claim, in the claimed order. -/
theorem cross_product_order_witness :
    build_commands_paramlist [] ["cmd0", "cmd1"]
      [("p1", ["a", "b"]), ("p2", ["z", "y"])] =
      .ok [⟨none, "cmd0", [("p1", .Text "a"), ("p2", .Text "z")]⟩,
           ⟨none, "cmd1", [("p1", .Text "a"), ("p2", .Text "z")]⟩,
           ⟨none, "cmd0", [("p1", .Text "b"), ("p2", .Text "z")]⟩,
           ⟨none, "cmd1", [("p1", .Text "b"), ("p2", .Text "z")]⟩,
           ⟨none, "cmd0", [("p1", .Text "a"), ("p2", .Text "y")]⟩,
           ⟨none, "cmd1", [("p1", .Text "a"), ("p2", .Text "y")]⟩,
           ⟨none, "cmd0", [("p1", .Text "b"), ("p2", .Text "y")]⟩,
           ⟨none, "cmd1", [("p1", .Text "b"), ("p2", .Text "y")]⟩] :=
  (cross_product_order [] ["cmd0", "cmd1"] [("p1", ["a", "b"]), ("p2", ["z", "y"])]
    (by decide) (by decide) (by decide)).trans (by decide)

/-- C2: with no duplicate parameter names and an admissible command-name
count, the number of built commands equals `|commands| · ∏|paramᵢ|`; in
particular an empty parameter list (cross-product size zero) builds the
empty command vector. -/
theorem cross_product_size (command_names command_list : List String)
    (pnv : List (String × List String))
    (hnodup : (pnv.map (fun p => p.1)).Nodup)
    (hnames : command_names.length ≤ 1 ∨
      command_names.length = crossSize command_list pnv ∨
      crossSize command_list pnv = 0) :
    (∃ l, build_commands_paramlist command_names command_list pnv = .ok l ∧
      l.length = command_list.length * (pnv.map (fun p => p.2.length)).prod) ∧
    (crossSize command_list pnv = 0 →
      build_commands_paramlist command_names command_list pnv = .ok []) := by
  have hsize : crossSize command_list pnv =
      command_list.length * (pnv.map (fun p => p.2.length)).prod := by
    unfold crossSize crossDims
    rw [List.prod_cons]
  have hdup : find_dupes (pnv.map (fun p => p.1)) = [] :=
    (find_dupes_eq_nil_iff _).mpr hnodup
  have hzero : crossSize command_list pnv = 0 →
      build_commands_paramlist command_names command_list pnv = .ok [] := by
    intro h0
    unfold build_commands_paramlist
    rw [hdup, if_neg (by simp)]
    unfold crossSize at h0
    dsimp only
    rw [if_pos h0]
  refine ⟨?_, hzero⟩
  by_cases h0 : crossSize command_list pnv = 0
  · exact ⟨[], hzero h0, by simp [← hsize, h0]⟩
  · have hnames' : command_names.length ≤ 1 ∨
        command_names.length = crossSize command_list pnv := by
      rcases hnames with h | h | h
      · exact Or.inl h
      · exact Or.inr h
      · exact absurd h h0
    refine ⟨_, build_commands_paramlist_ok command_names command_list pnv
      hnodup h0 hnames', ?_⟩
    rw [List.length_map, List.length_range, hsize]

/-- C2 witness: two commands and two two-value parameter lists build
`2 · 2 · 2 = 8` commands. -/
theorem cross_product_size_witness :
    ∃ l, build_commands_paramlist [] ["cmd0", "cmd1"]
      [("p1", ["a", "b"]), ("p2", ["z", "y"])] = .ok l ∧ l.length = 8 := by
  obtain ⟨l, hl, hlen⟩ := (cross_product_size [] ["cmd0", "cmd1"]
    [("p1", ["a", "b"]), ("p2", ["z", "y"])] (by decide) (by decide)).1
  exact ⟨l, hl, hlen.trans (by decide)⟩

/-- C4 counterexample: with an empty parameter list the cross product is
empty and `build_commands` returns zero commands without checking the
`--command-name` count, although the claim requires a user error for the
two names supplied here (a count greater than one and different from the
cross-product size). -/
theorem command_name_count_empty_cross_counterexample :
    build_commands_paramlist ["n1", "n2"] ["cmd"] [("p", [])] = .ok [] := by
  decide

/-- C4 amended: when the cross product is nonempty, a `--command-name`
count greater than one and different from the cross-product size is the
`UnexpectedCommandNameCount` user error; when the cross product is empty
the count is not checked and zero commands are built; and for plain
commands, more names than commands is the `TooManyCommandNames` user
error. -/
theorem command_name_count_check (command_names command_list : List String)
    (pnv : List (String × List String))
    (hnodup : (pnv.map (fun p => p.1)).Nodup) :
    (crossSize command_list pnv ≠ 0 → 1 < command_names.length →
      command_names.length ≠ crossSize command_list pnv →
      build_commands_paramlist command_names command_list pnv =
        .error (.optionsError (.UnexpectedCommandNameCount
          command_names.length (crossSize command_list pnv)))) ∧
    (crossSize command_list pnv = 0 →
      build_commands_paramlist command_names command_list pnv = .ok []) ∧
    (∀ names cmds : List String, cmds.length < names.length →
      build_commands_plain names cmds =
        .error (.optionsError (.TooManyCommandNames cmds.length))) := by
  have hdup : find_dupes (pnv.map (fun p => p.1)) = [] :=
    (find_dupes_eq_nil_iff _).mpr hnodup
  refine ⟨?_, ?_, ?_⟩
  · intro hsz h1 hne
    unfold build_commands_paramlist
    rw [hdup, if_neg (by simp)]
    unfold crossSize at hsz hne ⊢
    dsimp only
    rw [if_neg hsz, if_pos ⟨h1, hne⟩]
  · intro h0
    unfold build_commands_paramlist
    rw [hdup, if_neg (by simp)]
    unfold crossSize at h0
    dsimp only
    rw [if_pos h0]
  · intro names cmds h
    unfold build_commands_plain
    rw [if_pos h]

/-- C4 amended witness: three names against a cross product of size two
are rejected, and two names against one plain command are rejected. -/
theorem command_name_count_check_witness :
    build_commands_paramlist ["n1", "n2", "n3"] ["cmd"] [("p", ["1", "2"])] =
      .error (.optionsError (.UnexpectedCommandNameCount 3 2)) ∧
    build_commands_plain ["n1", "n2"] ["cmd"] =
      .error (.optionsError (.TooManyCommandNames 1)) := by
  have h := command_name_count_check ["n1", "n2", "n3"] ["cmd"]
    [("p", ["1", "2"])] (by decide)
  exact ⟨(h.1 (by decide) (by decide) (by decide)).trans (by decide),
    h.2.2 ["n1", "n2"] ["cmd"] (by decide)⟩

theorem range_flatMap_succ {α : Type} (n : Nat) (f : Nat → List α) :
    (List.range (n + 1)).flatMap f = f 0 ++ (List.range n).flatMap (fun i => f (i + 1)) := by
  rw [List.range_succ_eq_map, List.flatMap_cons, List.flatMap_map]

theorem writeResultsFrom_ok (rs : List BenchmarkResult) :
    ∀ (exporters : List (List BenchmarkResult → Option String)) (j : Nat),
      (∀ e ∈ exporters, e rs = none) →
      writeResultsFrom j exporters rs =
        ((List.range' j exporters.length).map (fun k => (k, rs)), none) := by
  intro exporters
  induction exporters with
  | nil => intro j h; simp [writeResultsFrom]
  | cons e es ih =>
    intro j h
    have he : e rs = none := h e (List.mem_cons_self e es)
    have ih' := ih (j + 1) (fun e' he' => h e' (List.mem_cons_of_mem e he'))
    simp [writeResultsFrom, he, ih', List.range'_succ]

theorem runLoop_ok (bench : String → BenchmarkResult)
    (exporters : List (List BenchmarkResult → Option String))
    (hok : ∀ e ∈ exporters, ∀ rs, e rs = none) :
    ∀ (cmds : List String) (results : List BenchmarkResult)
      (calls : List (Nat × List BenchmarkResult)),
      runLoop bench exporters cmds results calls =
        (results ++ cmds.map bench,
         calls ++ (List.range cmds.length).flatMap (fun i =>
           (List.range exporters.length).map
             (fun k => (k, results ++ (cmds.take (i + 1)).map bench))),
         none) := by
  intro cmds
  induction cmds with
  | nil => intro results calls; simp [runLoop]
  | cons c cs ih =>
    intro results calls
    have hw := writeResultsFrom_ok (results ++ [bench c]) exporters 0
      (fun e he => hok e he _)
    simp only [runLoop, write_results, hw]
    rw [ih (results ++ [bench c]) _]
    rw [List.length_cons, range_flatMap_succ]
    simp [List.take_succ_cons, List.range_eq_range']

/-- C6: after every single benchmark result is appended, the whole
accumulated result list is passed to every registered exporter: the export
calls of a full run are exactly, for each benchmark index `i` in order,
one call per exporter `k` carrying the first `i + 1` results. -/
theorem incremental_export (bench : String → BenchmarkResult)
    (exporters : List (List BenchmarkResult → Option String))
    (preparation_command : Option (List String))
    (output_style : OutputStyleOption) (commands : List String)
    (hprep : prepCountBad preparation_command commands.length = false)
    (hok : ∀ e ∈ exporters, ∀ rs, e rs = none) :
    (runModel bench exporters preparation_command output_style commands).results =
      commands.map bench ∧
    (runModel bench exporters preparation_command output_style commands).exportCalls =
      (List.range commands.length).flatMap (fun i =>
        (List.range exporters.length).map
          (fun k => (k, (commands.take (i + 1)).map bench))) := by
  unfold runModel
  rw [hprep]
  simp only [Bool.false_eq_true, if_false]
  rw [runLoop_ok bench exporters hok commands [] []]
  simp

/-- C6 witness: two benchmarks and one always-succeeding exporter produce
one export call per benchmark, each carrying all results so far. -/
theorem incremental_export_witness :
    (runModel (fun c => ⟨c, 1, none⟩) [fun _ => none] none
      OutputStyleOption.Disabled ["a", "b"]).results =
      [⟨"a", 1, none⟩, ⟨"b", 1, none⟩] ∧
    (runModel (fun c => ⟨c, 1, none⟩) [fun _ => none] none
      OutputStyleOption.Disabled ["a", "b"]).exportCalls =
      [(0, [⟨"a", 1, none⟩]), (0, [⟨"a", 1, none⟩, ⟨"b", 1, none⟩])] := by
  have h := incremental_export (fun c => ⟨c, 1, none⟩) [fun _ => none] none
    OutputStyleOption.Disabled ["a", "b"] rfl
    (by intro e he rs; simp at he; subst he; rfl)
  refine ⟨h.1.trans (by decide), h.2.trans (by decide)⟩

theorem runLoop_fail (bench : String → BenchmarkResult)
    (exporters : List (List BenchmarkResult → Option String)) :
    ∀ (cmds : List String) (k : Nat) (results : List BenchmarkResult)
      (calls : List (Nat × List BenchmarkResult)) (msg : String),
      k < cmds.length →
      (∀ i < k,
        (write_results exporters (results ++ (cmds.take (i + 1)).map bench)).2 = none) →
      (write_results exporters (results ++ (cmds.take (k + 1)).map bench)).2 = some msg →
      ∃ calls', runLoop bench exporters cmds results calls =
        (results ++ (cmds.take (k + 1)).map bench, calls',
         some ("The following error occurred while exporting: " ++ msg)) := by
  intro cmds
  induction cmds with
  | nil => intro k results calls msg hk; simp at hk
  | cons c cs ih =>
    intro k results calls msg hk hbefore hfail
    cases k with
    | zero =>
      have hf : (write_results exporters (results ++ [bench c])).2 = some msg := by
        simpa [List.take_succ_cons] using hfail
      refine ⟨calls ++ (write_results exporters (results ++ [bench c])).1, ?_⟩
      simp [runLoop, hf, List.take_succ_cons]
    | succ j =>
      have h0 : (write_results exporters (results ++ [bench c])).2 = none := by
        simpa [List.take_succ_cons] using hbefore 0 (Nat.succ_pos j)
      have hbefore' : ∀ i < j,
          (write_results exporters
            ((results ++ [bench c]) ++ (cs.take (i + 1)).map bench)).2 = none := by
        intro i hi
        have := hbefore (i + 1) (by omega)
        simpa [List.take_succ_cons] using this
      have hfail' : (write_results exporters
          ((results ++ [bench c]) ++ (cs.take (j + 1)).map bench)).2 = some msg := by
        simpa [List.take_succ_cons] using hfail
      obtain ⟨calls', hc⟩ := ih j (results ++ [bench c])
        (calls ++ (write_results exporters (results ++ [bench c])).1) msg
        (by simpa using hk) hbefore' hfail'
      refine ⟨calls', ?_⟩
      simp only [runLoop, h0]
      rw [hc]
      simp [List.take_succ_cons]

/-- C8: when an exporter fails while writing the results after the
`k`-th benchmark, the run terminates through `error(..)`: exit code 1, a
single one-line `Error:` message on stderr, no Summary output, and only the
first `k + 1` commands were ever benchmarked. -/
theorem export_error_aborts_run (bench : String → BenchmarkResult)
    (exporters : List (List BenchmarkResult → Option String))
    (preparation_command : Option (List String))
    (output_style : OutputStyleOption) (commands : List String)
    (k : Nat) (msg : String)
    (hprep : prepCountBad preparation_command commands.length = false)
    (hk : k < commands.length)
    (hbefore : ∀ i < k,
      (write_results exporters ((commands.take (i + 1)).map bench)).2 = none)
    (hfail : (write_results exporters ((commands.take (k + 1)).map bench)).2 = some msg) :
    (runModel bench exporters preparation_command output_style commands).exitCode =
      some 1 ∧
    (runModel bench exporters preparation_command output_style commands).stderrLines =
      ["Error: " ++ ("The following error occurred while exporting: " ++ msg)] ∧
    (runModel bench exporters preparation_command output_style commands).results =
      (commands.take (k + 1)).map bench ∧
    (runModel bench exporters preparation_command output_style commands).stdoutLines =
      [] := by
  obtain ⟨calls', hc⟩ := runLoop_fail bench exporters commands k [] [] msg hk
    (by simpa using hbefore) (by simpa using hfail)
  unfold runModel
  rw [hprep]
  simp [hc]

/-- C8 witness: an exporter that always fails aborts after the first
benchmark with an `Error:` line and exit code 1; the second command is
never benchmarked. -/
theorem export_error_aborts_run_witness :
    (runModel (fun c => ⟨c, 1, none⟩) [fun _ => some "disk full"] none
      OutputStyleOption.Full ["a", "b"]).exitCode = some 1 ∧
    (runModel (fun c => ⟨c, 1, none⟩) [fun _ => some "disk full"] none
      OutputStyleOption.Full ["a", "b"]).stderrLines =
      ["Error: The following error occurred while exporting: disk full"] ∧
    (runModel (fun c => ⟨c, 1, none⟩) [fun _ => some "disk full"] none
      OutputStyleOption.Full ["a", "b"]).results = [⟨"a", 1, none⟩] := by
  have h := export_error_aborts_run (fun c => ⟨c, 1, none⟩)
    [fun _ => some "disk full"] none OutputStyleOption.Full ["a", "b"] 0 "disk full"
    rfl (by decide) (fun i hi => absurd hi (Nat.not_lt_zero i)) rfl
  exact ⟨h.1, h.2.1, h.2.2.1.trans (by decide)⟩

/-- C7: when some benchmark mean is ≤ 0 the relative-speed computation is
uncomputable, so the comparison summary is suppressed (no stdout), the
explanatory note is the only stderr line, every exporter still received
every incremental result, and the run ends without failing. -/
theorem uncomputable_comparison_note (bench : String → BenchmarkResult)
    (exporters : List (List BenchmarkResult → Option String))
    (preparation_command : Option (List String))
    (output_style : OutputStyleOption) (commands : List String)
    (hprep : prepCountBad preparation_command commands.length = false)
    (hok : ∀ e ∈ exporters, ∀ rs, e rs = none)
    (hsty : output_style ≠ OutputStyleOption.Disabled)
    (hlen : 2 ≤ commands.length)
    (hzero : ∃ c ∈ commands, (bench c).mean ≤ 0) :
    (runModel bench exporters preparation_command output_style commands).exitCode =
      none ∧
    (runModel bench exporters preparation_command output_style commands).stdoutLines =
      [] ∧
    (runModel bench exporters preparation_command output_style commands).stderrLines =
      [comparisonUncomputableNote] ∧
    (runModel bench exporters preparation_command output_style commands).exportCalls =
      (List.range commands.length).flatMap (fun i =>
        (List.range exporters.length).map
          (fun k => (k, (commands.take (i + 1)).map bench))) := by
  have hcomp : relativeSpeedCompute (commands.map bench) = none := by
    unfold relativeSpeedCompute
    rw [if_neg ?_]
    obtain ⟨c, hc, hle⟩ := hzero
    intro hall
    rw [List.all_eq_true] at hall
    have hb := hall (bench c) (List.mem_map_of_mem bench hc)
    simp at hb
    exact absurd hb (not_lt.mpr hle)
  have hwc : write_benchmark_comparison (commands.map bench) =
      ([], [comparisonUncomputableNote]) := by
    unfold write_benchmark_comparison
    rw [if_neg (by rw [List.length_map]; omega), hcomp]
  unfold runModel
  rw [hprep]
  simp only [Bool.false_eq_true, if_false]
  rw [runLoop_ok bench exporters hok commands [] []]
  simp [hsty, hwc]

/-- C7 witness: two zero-mean results suppress the Summary, emit the note
to stderr, and the run still exports and exits cleanly. -/
theorem uncomputable_comparison_note_witness :
    (runModel (fun c => ⟨c, 0, none⟩) [fun _ => none] none
      OutputStyleOption.Full ["a", "b"]).exitCode = none ∧
    (runModel (fun c => ⟨c, 0, none⟩) [fun _ => none] none
      OutputStyleOption.Full ["a", "b"]).stdoutLines = [] ∧
    (runModel (fun c => ⟨c, 0, none⟩) [fun _ => none] none
      OutputStyleOption.Full ["a", "b"]).stderrLines =
      [comparisonUncomputableNote] ∧
    (runModel (fun c => ⟨c, 0, none⟩) [fun _ => none] none
      OutputStyleOption.Full ["a", "b"]).exportCalls =
      [(0, [⟨"a", 0, none⟩]), (0, [⟨"a", 0, none⟩, ⟨"b", 0, none⟩])] := by
  have h := uncomputable_comparison_note (fun c => ⟨c, 0, none⟩) [fun _ => none]
    none OutputStyleOption.Full ["a", "b"] rfl
    (by intro e he rs; simp at he; subst he; rfl)
    (by decide) (by decide) ⟨"a", by decide, by decide⟩
  exact ⟨h.1, h.2.1, h.2.2.1, h.2.2.2.trans (by decide)⟩
